import Mathlib

/-!
Verification of the write_tool content pipeline against its specification.

Each Python function relevant to the checked claims is shallowly embedded as
an executable Lean definition.  Browser and file-system effects are abstracted
as explicit inputs (poll traces, query oracles, round outcomes); all pure
computation (string handling, list manipulation, branching logic) is
translated directly from the source.
-/

set_option maxRecDepth 16384

namespace WriteTool

/-- Python `str.strip()`: drop leading and trailing whitespace. -/
def pyStrip (s : String) : String :=
  String.mk (((s.data.dropWhile Char.isWhitespace).reverse.dropWhile Char.isWhitespace).reverse)

/-! ### Task selection and status sentinels

From `src/modules/workflow_manager.py` (`_load_titles_from_excel`,
`_update_excel_status`, `run_async`) and `src/modules/title_reader.py`
(`get_all_pending_titles`). -/

/-- Status string written by the orchestrator on success
(`workflow_manager.py` line 129). -/
def completedStatus : String := "已完成文章创作"

/-- Status string written by the orchestrator on failure
(`workflow_manager.py` line 133). -/
def failedStatus : String := "创作失败"

/-- The per-row pending test of `_load_titles_from_excel`: a row is kept when
its status cell is absent or differs from the completed sentinel
(`workflow_manager.py` lines 240-248). -/
def pendingKeep (statuses : List String) (i : Nat) : Bool :=
  match statuses.get? i with
  | some s => s != completedStatus
  | none => true

/-- `_load_titles_from_excel`, reduced to its selection logic: enumerate the
title column and keep the rows whose status is not the completed sentinel
(`workflow_manager.py` lines 225-265). -/
def load_titles_from_excel (titles statuses : List String) : List (Nat × String) :=
  titles.enum.filter (fun p => pendingKeep statuses p.1)

/-- Terminal failure sentinel used by `TitleReader.mark_failed`
(`title_reader.py` line 72). -/
def titleReaderFailed : String := "失败"

/-- `TitleReader.get_all_pending_titles`: a row is pending when its stripped
status differs from "文章已创作" (`title_reader.py` lines 50-64). -/
def get_all_pending_titles (rows : List (String × Option String)) : List (Nat × String) :=
  (rows.enum.filter (fun p =>
    (match p.2.2 with
     | some s => pyStrip s
     | none => "") != "文章已创作")).map (fun p => (p.1, p.2.1))

/-! ### Per-task orchestration

From `WorkflowThread.run_async` (`workflow_manager.py` lines 72-135): per task,
when scraping is enabled and fails the loop `continue`s; otherwise generation
runs and the Excel status is written from its outcome. -/

structure WorkflowConfig where
  enable_article_collect : Bool
  enable_image_collect : Bool
deriving DecidableEq

structure TaskOutcome where
  generationInvoked : Bool
  statusWrite : Option String
deriving DecidableEq

/-- One iteration of the task loop of `run_async` (`workflow_manager.py`
lines 72-135), with the scrape and generation outcomes as inputs. -/
def run_async_task (cfg : WorkflowConfig) (scrapeSuccess : Bool)
    (genSuccess : Bool) : TaskOutcome :=
  if (cfg.enable_article_collect || cfg.enable_image_collect) && !scrapeSuccess then
    { generationInvoked := false, statusWrite := none }
  else if genSuccess then
    { generationInvoked := true, statusWrite := some completedStatus }
  else
    { generationInvoked := true, statusWrite := some failedStatus }

/-! ### Title sanitisation and save path

From `WorkflowThread._save_article` (`workflow_manager.py` lines 297-331):
`safe_title = "".join(c for c in title if c.isalnum() or c in (' ', '_')).rstrip()`.
Python's Unicode `str.isalnum` is passed in as a parameter `alnum`; it agrees
with `Char.isAlphanum` on ASCII characters. -/

/-- The character filter of `_save_article` line 304: keep alphanumeric
characters, spaces and underscores. -/
def keepChar (alnum : Char → Bool) (c : Char) : Bool :=
  alnum c || c == ' ' || c == '_'

/-- Python `str.rstrip`: drop trailing whitespace characters. -/
def rstripChars (cs : List Char) : List Char :=
  (cs.reverse.dropWhile Char.isWhitespace).reverse

/-- The sanitised title of `_save_article` line 304. -/
def safe_title (alnum : Char → Bool) (title : String) : String :=
  String.mk (rstripChars (title.data.filter (keepChar alnum)))

/-- The output file name of `_save_article` line 305:
`os.path.join(save_path, safe_title + ".md")`. -/
def save_filename (alnum : Char → Bool) (savePath title : String) : String :=
  savePath ++ "/" ++ safe_title alnum title ++ ".md"

/-- Formalisation of claim C6's sanitisation wording: remove every character
that is not alphanumeric, space, dash, or underscore (and nothing else). -/
def claimSanitize (alnum : Char → Bool) (title : String) : String :=
  String.mk (title.data.filter (fun c => alnum c || c == ' ' || c == '-' || c == '_'))

/-! ### Image insertion

From `WorkflowThread._insert_images_after_headings` (`workflow_manager.py`
lines 333-363). -/

/-- Test of `workflow_manager.py` line 347: `line.strip().startswith('## ')`. -/
def isLevel2Heading (line : String) : Bool :=
  "## ".data.isPrefixOf (pyStrip line).data

/-- The heading appended before leftover images (`workflow_manager.py`
line 357); its text is Chinese for "Related Images". -/
def relatedImagesHeading : String := "## 相关图片"

/-- Number of level-2 headings among the lines. -/
def countLevel2 (lines : List String) : Nat :=
  lines.countP (fun l => isLevel2Heading l)

/-- The main loop of `_insert_images_after_headings` (lines 343-352): walk the
content lines, and after each level-2 heading, while images remain, insert a
blank line, the next image, and a blank line.  Returns the produced lines and
the images left over. -/
def insertLoop : List String → List String → List String × List String
  | [], pics => ([], pics)
  | line :: rest, [] =>
    (line :: (insertLoop rest []).1, (insertLoop rest []).2)
  | line :: rest, p :: ps =>
    if isLevel2Heading line then
      (line :: "" :: p :: "" :: (insertLoop rest ps).1, (insertLoop rest ps).2)
    else
      (line :: (insertLoop rest (p :: ps)).1, (insertLoop rest (p :: ps)).2)

/-- The leftover block of `_insert_images_after_headings` (lines 354-361):
when images remain, append a blank line, the related-images heading, a blank
line, and then each leftover image followed by a blank line. -/
def trailingImagesBlock (pics : List String) : List String :=
  if pics.isEmpty then []
  else "" :: relatedImagesHeading :: "" :: pics.flatMap (fun p => [p, ""])

/-- `_insert_images_after_headings` at the granularity of lines. -/
def insert_images_lines (lines pics : List String) : List String :=
  (insertLoop lines pics).1 ++ trailingImagesBlock (insertLoop lines pics).2

/-- `_insert_images_after_headings` (lines 333-363): split on newlines, run
the loop, append the leftover block, and re-join. -/
def insert_images_after_headings (content : String) (pics : List String) : String :=
  String.intercalate "\n" (insert_images_lines (content.splitOn "\n") pics)

/-- Formalisation of claim C4's wording: walking the document in order, each
level-2 heading is immediately followed by the next unused image, images taken
in their original order. -/
def claimPlaceImages : List String → List String → List String
  | [], _ => []
  | line :: rest, [] => line :: claimPlaceImages rest []
  | line :: rest, p :: ps =>
    if isLevel2Heading line then line :: p :: claimPlaceImages rest ps
    else line :: claimPlaceImages rest (p :: ps)

/-! ### Word counts and generation continuation

From `MonicaAutomator.compose_article` (`monica_automator.py` lines 358-453)
and `PoeAutomator.check_content_length` / `generate_content`
(`poe_automator.py` lines 284-360). -/

/-- Monica's word count (`monica_automator.py` line 416):
`len(content.replace(' ', '').replace('\n', ''))`. -/
def monicaWordCount (content : String) : Nat :=
  (content.data.filter (fun c => !(c == ' ') && !(c == '\n'))).length

/-- Helper for `pyWordCount`: count maximal non-whitespace runs; the flag
records whether the scan is currently inside a run. -/
def pyWordCountAux : List Char → Bool → Nat
  | [], _ => 0
  | c :: rest, inWord =>
    if c.isWhitespace then pyWordCountAux rest false
    else (if inWord then 0 else 1) + pyWordCountAux rest true

/-- Poe's word count (`poe_automator.py` line 287): `len(content.split())`,
Python's whitespace split that discards empty pieces, i.e. the number of
maximal non-whitespace runs. -/
def pyWordCount (content : String) : Nat :=
  pyWordCountAux content.data false

/-- `PoeAutomator.check_content_length` (`poe_automator.py` lines 284-289). -/
def check_content_length (content : String) (minWords : Nat) : Bool :=
  pyWordCount content ≥ minWords

/-- Outcome of the single optional continuation round of
`MonicaAutomator.compose_article`: whether the continuation send and the
completion wait succeeded, and the extracted additional content. -/
structure GenerationRound where
  sendOk : Bool
  waitOk : Bool
  response : Option String

/-- Step 7 of `MonicaAutomator.compose_article` (lines 415-446): when the word
count is strictly below the minimum and a continuation prompt is configured
(non-empty), send the continuation prompt once; on any mid-round failure the
current content is returned.  The second component counts continuation
prompts sent. -/
def monica_continuation (content : String) (minWords : Nat)
    (continuePrompt : String) (round : GenerationRound) : String × Nat :=
  if monicaWordCount content < minWords && !(continuePrompt == "") then
    if !round.sendOk then (content, 1)
    else if !round.waitOk then (content, 1)
    else match round.response with
      | some add => (content ++ "\n\n" ++ add, 1)
      | none => (content, 1)
  else (content, 0)

/-- One environment round of `PoeAutomator.generate_content`'s supplement
loop: whether `send_message` succeeded and the response then extracted. -/
structure PoeRound where
  sendOk : Bool
  response : String

/-- The supplement loop of `PoeAutomator.generate_content` (lines 341-354):
while the length check fails, send the supplemental prompt; stop when the
check passes, a send fails, or the response is unchanged.  The trace of
environment rounds is finite; `none` means the trace was exhausted with the
loop still running.  The second component counts supplemental prompts sent. -/
def poe_supplement_loop (minWords : Nat) : List PoeRound → String → Option (String × Nat)
  | rounds, content =>
    if check_content_length content minWords then some (content, 0)
    else
      match rounds with
      | [] => none
      | r :: rest =>
        if !r.sendOk then some (content, 1)
        else if r.response == content then some (content, 1)
        else
          match poe_supplement_loop minWords rest r.response with
          | some p => some (p.1, p.2 + 1)
          | none => none

/-! ### Scraper content extraction

From `ToutiaoScraper._extract_article_content` (`toutiao_scraper.py` lines
582-616): try each configured container selector in order; return the first
stripped text strictly longer than 100 characters.  The page is abstracted as
a query oracle from selector to extracted text (`none` for a failed or empty
evaluation). -/

def extract_article_content (query : String → Option String) : List String → Option String
  | [] => none
  | s :: rest =>
    match query s with
    | some content =>
      if (pyStrip content).length > 100 then some (pyStrip content)
      else extract_article_content query rest
    | none => extract_article_content query rest

/-! ### Browser navigation and element lookup

From `BrowserManager.navigate` (`browser_manager.py` lines 202-234),
`_find_element_by_css` (lines 372-407), `find_elements` and
`_find_elements_by_css` (lines 409-451). -/

/-- The ready-state polling loop of `navigate` (lines 210-230): each trace
entry is one poll of `document.readyState` (`none` when the script threw).
A ready state ends the loop with `True`; an exhausted trace (the 15 s budget)
also returns `True`. -/
def navigateWait : List (Option String) → Bool
  | [] => true
  | some rs :: rest =>
    if rs == "interactive" || rs == "complete" then true else navigateWait rest
  | none :: rest => navigateWait rest

/-- `BrowserManager.navigate` (lines 202-234): `False` exactly when the
`Page.navigate` command itself was not accepted; otherwise the polling loop
runs and its timeout is not treated as fatal. -/
def navigate (commandAccepted : Bool) (polls : List (Option String)) : Bool :=
  if commandAccepted then navigateWait polls else false

/-- `_find_element_by_css` (lines 372-407): poll the page once per 500 ms step
until an element is present or the fuel (timeout) runs out; `page k` is the
script result at step `k` (`none` when the script failed, otherwise the
matching elements).  Returns the first element found, `none` on timeout. -/
def find_element_by_css {α : Type} (page : Nat → Option (List α)) :
    Nat → Nat → Option α
  | 0, _ => none
  | fuel + 1, step =>
    match page step with
    | some (e :: _) => some e
    | _ => find_element_by_css page fuel (step + 1)

/-- `_find_elements_by_css` (lines 420-451): a single immediate query — the
script runs once against the page state at step 0; a non-list or failed result
yields the empty list.  The timeout parameter of the source is unused. -/
def find_elements_by_css {α : Type} (page : Nat → Option (List α)) : List α :=
  match page 0 with
  | some es => es
  | none => []

/-- Page used to separate the two lookup contracts: no element at poll step
0, one element from step 1 on. -/
def lateElementPage : Nat → Option (List Nat) := fun k =>
  if k = 0 then some [] else some [7]

/-- A long extracted text (150 characters) for exercising the scraper's
length threshold. -/
def longText : String := String.mk (List.replicate 150 'x')

/-- Concrete selector oracle for the scraper scenario: selector `"selA"`
yields whitespace only, `"selB"` yields long real content, `"selC"` yields
short text. -/
def fallbackQuery : String → Option String := fun s =>
  if s = "selA" then some " " else if s = "selB" then some longText
  else some "short"

/-! ## Helper lemmas -/

theorem pendingKeep_iff (statuses : List String) (i : Nat) :
    pendingKeep statuses i = true ↔
      ∀ s, statuses.get? i = some s → s ≠ completedStatus := by
  unfold pendingKeep
  cases h : statuses.get? i <;> simp [h]

theorem navigateWait_true : ∀ polls, navigateWait polls = true
  | [] => rfl
  | some rs :: rest => by
    show (if rs == "interactive" || rs == "complete" then true
          else navigateWait rest) = true
    rw [navigateWait_true rest]
    split <;> rfl
  | none :: rest => navigateWait_true rest

theorem rstripChars_sublist (cs : List Char) : (rstripChars cs).Sublist cs := by
  unfold rstripChars
  have h := (List.dropWhile_sublist (l := cs.reverse) (p := Char.isWhitespace)).reverse
  simpa using h

theorem head?_dropWhile {α : Type} (p : α → Bool) :
    ∀ (l : List α) (c : α), (l.dropWhile p).head? = some c → p c = false := by
  intro l
  induction l with
  | nil => intro c h; simp at h
  | cons hd tl ih =>
    intro c h
    by_cases hp : p hd = true
    · rw [List.dropWhile_cons_of_pos hp] at h
      exact ih c h
    · rw [List.dropWhile_cons_of_neg hp] at h
      simp only [List.head?_cons, Option.some.injEq] at h
      subst h
      exact Bool.not_eq_true _ ▸ Bool.of_not_eq_true hp

theorem countLevel2_cons (line : String) (rest : List String) :
    countLevel2 (line :: rest) =
      countLevel2 rest + (if isLevel2Heading line then 1 else 0) := by
  simp [countLevel2, List.countP_cons]

theorem isLevel2Heading_ne_empty {line : String}
    (h : isLevel2Heading line = true) : line ≠ "" := by
  intro he
  subst he
  exact absurd h (by decide)

theorem claimPlaceImages_nil : ∀ l : List String, claimPlaceImages l [] = l
  | [] => rfl
  | line :: rest => by
    rw [claimPlaceImages, claimPlaceImages_nil rest]

theorem claimPlaceImages_cons_not (line : String) (L pics : List String)
    (h : isLevel2Heading line = false) :
    claimPlaceImages (line :: L) pics = line :: claimPlaceImages L pics := by
  cases pics with
  | nil => rw [claimPlaceImages]
  | cons p ps => simp [claimPlaceImages, h]

theorem insertLoop_snd : ∀ (lines pics : List String),
    (insertLoop lines pics).2 = pics.drop (countLevel2 lines) := by
  intro lines
  induction lines with
  | nil => intro pics; rfl
  | cons line rest ih =>
    intro pics
    rw [countLevel2_cons]
    cases pics with
    | nil =>
      simp only [insertLoop]
      rw [ih [], List.drop_nil, List.drop_nil]
    | cons p ps =>
      cases hl : isLevel2Heading line
      · simp only [insertLoop, hl, Bool.false_eq_true, if_false, if_neg]
        rw [ih (p :: ps)]
        simp
      · simp only [insertLoop, hl, if_true, if_pos]
        rw [ih ps]
        simp [List.drop_succ_cons]

theorem insertLoop_fst_filter : ∀ (lines pics : List String),
    (∀ p ∈ pics, p ≠ "") →
    ((insertLoop lines pics).1).filter (fun s => s != "") =
      claimPlaceImages (lines.filter (fun s => s != ""))
        (pics.take (countLevel2 lines)) := by
  intro lines
  induction lines with
  | nil => intro pics _; rfl
  | cons line rest ih =>
    intro pics hpics
    rw [countLevel2_cons]
    cases pics with
    | nil =>
      simp only [insertLoop]
      rw [List.take_nil, claimPlaceImages_nil, List.filter_cons, List.filter_cons]
      have hrest : ((insertLoop rest []).1).filter (fun s => s != "") =
          rest.filter (fun s => s != "") := by
        rw [ih [] (by simp), List.take_nil, claimPlaceImages_nil]
      rw [hrest]
    | cons p ps =>
      have hp : p ≠ "" := hpics p (List.mem_cons_self p ps)
      have hps : ∀ q ∈ ps, q ≠ "" := fun q hq => hpics q (List.mem_cons_of_mem p hq)
      cases hl : isLevel2Heading line
      · simp only [insertLoop, hl, Bool.false_eq_true, if_false]
        rw [List.filter_cons, List.filter_cons]
        by_cases he : (line != "") = true
        · rw [if_pos he, if_pos he, claimPlaceImages_cons_not _ _ _ hl]
          rw [ih (p :: ps) hpics]
          simp
        · rw [if_neg he, if_neg he]
          rw [ih (p :: ps) hpics]
          simp
      · have hlne : line ≠ "" := isLevel2Heading_ne_empty hl
        have h1 : (line != "") = true := by simpa [bne_iff_ne] using hlne
        have h3 : (p != "") = true := by simpa [bne_iff_ne] using hp
        have hn2 : ¬ ((("" : String) != "") = true) := by decide
        simp only [insertLoop, hl, if_true, if_pos]
        rw [List.filter_cons, if_pos h1, List.filter_cons, if_neg hn2,
          List.filter_cons, if_pos h3, List.filter_cons, if_neg hn2]
        rw [List.filter_cons, if_pos h1]
        simp only [if_true, List.take_succ_cons]
        rw [show claimPlaceImages (line :: rest.filter (fun s => s != ""))
              (p :: ps.take (countLevel2 rest)) =
            line :: p :: claimPlaceImages (rest.filter (fun s => s != ""))
              (ps.take (countLevel2 rest)) from by simp [claimPlaceImages, hl]]
        rw [ih ps hps]

theorem flatMap_pair_filter : ∀ (pics : List String), (∀ p ∈ pics, p ≠ "") →
    (pics.flatMap (fun p => [p, ""])).filter (fun s => s != "") = pics
  | [], _ => rfl
  | p :: ps, h => by
    have hp : (p != "") = true := by
      simpa [bne_iff_ne] using h p (List.mem_cons_self p ps)
    rw [List.flatMap_cons, List.filter_append]
    have hpair : ([p, ""].filter (fun s => s != "")) = [p] := by
      rw [List.filter_cons, if_pos hp]
      rfl
    rw [hpair, flatMap_pair_filter ps (fun q hq => h q (List.mem_cons_of_mem p hq))]
    rfl

theorem trailingImagesBlock_filter (pics : List String)
    (h : ∀ p ∈ pics, p ≠ "") (hne : pics ≠ []) :
    (trailingImagesBlock pics).filter (fun s => s != "") =
      relatedImagesHeading :: pics := by
  unfold trailingImagesBlock
  rw [if_neg (by simpa [List.isEmpty_iff] using hne)]
  rw [List.filter_cons, if_neg (by decide), List.filter_cons,
    if_pos (by decide), List.filter_cons, if_neg (by decide),
    flatMap_pair_filter pics h]

theorem insertLoop_fst_sublist (lines : List String) :
    ∀ pics, lines.Sublist (insertLoop lines pics).1 := by
  induction lines with
  | nil => intro pics; exact List.nil_sublist _
  | cons line rest ih =>
    intro pics
    cases pics with
    | nil =>
      simp only [insertLoop]
      exact (ih []).cons₂ line
    | cons p ps =>
      cases hl : isLevel2Heading line
      · simp only [insertLoop, hl, Bool.false_eq_true, if_false]
        exact (ih (p :: ps)).cons₂ line
      · simp only [insertLoop, hl, if_true]
        exact ((((ih ps).cons "").cons p).cons "").cons₂ line

theorem count_if_eq (x y : String) (l : List String) :
    (y :: l).count x = l.count x + (if x = y then 1 else 0) := by
  simp only [List.count_cons, beq_iff_eq]
  split_ifs <;> simp_all

theorem insertLoop_count (x : String) (lines : List String) : ∀ pics,
    ((insertLoop lines pics).1).count x =
      lines.count x + (pics.take (countLevel2 lines)).count x +
      (if x = "" then 2 * min (countLevel2 lines) pics.length else 0) := by
  induction lines with
  | nil =>
    intro pics
    simp [insertLoop, countLevel2]
  | cons line rest ih =>
    intro pics
    rw [countLevel2_cons]
    cases pics with
    | nil =>
      simp only [insertLoop]
      rw [count_if_eq, count_if_eq, ih []]
      simp only [List.take_nil, List.count_nil, List.length_nil, Nat.min_zero,
        Nat.mul_zero]
      split_ifs <;> omega
    | cons p ps =>
      cases hl : isLevel2Heading line
      · simp only [insertLoop, hl, Bool.false_eq_true, if_false]
        rw [count_if_eq, ih (p :: ps), count_if_eq]
        simp only [Nat.add_zero]
        split_ifs <;> omega
      · simp only [insertLoop, hl, if_true]
        rw [count_if_eq, count_if_eq, count_if_eq, count_if_eq, ih ps]
        rw [List.take_succ_cons, count_if_eq, count_if_eq, List.length_cons]
        rw [Nat.succ_min_succ]
        split_ifs <;> omega

theorem flatMap_pair_count (x : String) (pics : List String) :
    (pics.flatMap (fun p => [p, ""])).count x =
      pics.count x + (if x = "" then pics.length else 0) := by
  induction pics with
  | nil => simp
  | cons p ps ih =>
    rw [List.flatMap_cons, List.count_append]
    have hpair : ([p, ""] : List String).count x =
        (if x = "" then 1 else 0) + (if x = p then 1 else 0) := by
      rw [count_if_eq, count_if_eq]
      simp only [List.count_nil]
      split_ifs <;> omega
    rw [hpair, ih, count_if_eq, List.length_cons]
    split_ifs <;> omega

theorem trailingImagesBlock_count (x : String) (pics : List String)
    (hne : pics ≠ []) :
    (trailingImagesBlock pics).count x =
      pics.count x + (if x = "" then pics.length + 2 else 0) +
      (if x = relatedImagesHeading then 1 else 0) := by
  unfold trailingImagesBlock
  rw [if_neg (by simpa [List.isEmpty_iff] using hne)]
  rw [count_if_eq, count_if_eq, count_if_eq, flatMap_pair_count]
  split_ifs <;> omega

/-! ## Claims -/

/-- Claim C1, counterexample: a row whose status is the terminal failure
sentinel "创作失败" is still selected by `_load_titles_from_excel`, and a row
marked "失败" is still returned by `TitleReader.get_all_pending_titles`; an
already-failed task is therefore re-selected by a subsequent run over the
unchanged task source. -/
theorem C1_counterexample :
    load_titles_from_excel ["t"] [failedStatus] = [(0, "t")] ∧
    get_all_pending_titles [("t", some titleReaderFailed)] = [(0, "t")] ∧
    failedStatus ≠ completedStatus := by decide

/-- Claim C1, amended: pending-task selection keeps exactly the rows whose
status cell, when present, differs from the completed sentinel
"已完成文章创作"; rows carrying the failed sentinel, in particular, are kept
and re-selected. -/
theorem C1_amended (titles statuses : List String) (i : Nat) (t : String) :
    ((i, t) ∈ load_titles_from_excel titles statuses ↔
      (i, t) ∈ titles.enum ∧
        ∀ s, statuses.get? i = some s → s ≠ completedStatus) ∧
    (statuses.get? i = some failedStatus → pendingKeep statuses i = true) := by
  constructor
  · rw [load_titles_from_excel, List.mem_filter]
    exact and_congr_right (fun _ => pendingKeep_iff statuses i)
  · intro h
    rw [pendingKeep_iff]
    intro s hs
    rw [h, Option.some_inj] at hs
    subst hs
    decide

/-- Witness for C1's amended theorem at a concrete failed row. -/
theorem C1_amended_witness :
    (0, "t") ∈ load_titles_from_excel ["t"] [failedStatus] :=
  (C1_amended ["t"] [failedStatus] 0 "t").1.mpr
    ⟨by decide, fun s hs => by
      simp only [List.get?] at hs
      cases hs
      decide⟩

/-- Claim C2, counterexample: the Poe automator's supplement loop sends the
continuation prompt twice in a single task when the first supplemented
response is still below the minimum, refuting "a second continuation round is
never initiated within the same task". -/
theorem C2_counterexample :
    poe_supplement_loop 3 [⟨true, "a b"⟩, ⟨true, "a b c"⟩] "a" =
      some ("a b c", 2) ∧ ¬ (2 ≤ 1) := by decide

/-- Claim C2, amended: the Monica automator sends the continuation prompt at
most once per task, exactly when the initial word count is strictly below the
minimum and a continuation prompt is configured; the Poe automator's
`generate_content` instead loops, sending no supplemental prompt exactly when
the initial length check already passes, but possibly several otherwise. -/
theorem C2_amended (content : String) (minWords : Nat) (cp : String)
    (round : GenerationRound) :
    (monica_continuation content minWords cp round).2 =
      (if monicaWordCount content < minWords && !(cp == "") then 1 else 0) ∧
    (monica_continuation content minWords cp round).2 ≤ 1 ∧
    poe_supplement_loop minWords [] content =
      (if check_content_length content minWords then some (content, 0)
       else none) := by
  refine ⟨?_, ?_, ?_⟩
  · unfold monica_continuation
    rcases round with ⟨s, w, resp⟩
    cases s <;> cases w <;> cases resp <;> dsimp <;> split <;> rfl
  · unfold monica_continuation
    rcases round with ⟨s, w, resp⟩
    cases s <;> cases w <;> cases resp <;> dsimp <;> split <;> simp
  · rw [poe_supplement_loop.eq_def]

/-- Claim C3, counterexample: with article collection enabled and the scrape
step failing, the task loop skips generation but writes no status at all; in
particular the failed sentinel is not recorded, contradicting "records the
task's status as failed in persistent storage". -/
theorem C3_counterexample :
    run_async_task ⟨true, false⟩ false false =
      { generationInvoked := false, statusWrite := none } ∧
    (run_async_task ⟨true, false⟩ false false).statusWrite ≠
      some failedStatus := by decide

/-- Claim C3, amended: when scraping is enabled and the scrape step fails,
the orchestrator skips the generation step entirely and moves to the next
task without writing any status for the row (the row stays pending). -/
theorem C3_amended (cfg : WorkflowConfig) (genSuccess : Bool)
    (h : (cfg.enable_article_collect || cfg.enable_image_collect) = true) :
    run_async_task cfg false genSuccess =
      { generationInvoked := false, statusWrite := none } := by
  simp [run_async_task, h]

/-- Witness for C3's amended theorem with article collection on. -/
theorem C3_amended_witness :
    run_async_task ⟨true, false⟩ false true =
      { generationInvoked := false, statusWrite := none } :=
  C3_amended ⟨true, false⟩ true (by decide)

/-- Claim C5: with the word count exactly equal to the configured minimum, no
continuation prompt is sent on either platform — both gates are strict
less-than comparisons. -/
theorem C5_boundary (c1 c2 : String) (m1 m2 : Nat) (cp : String)
    (round : GenerationRound) (rounds : List PoeRound)
    (h1 : monicaWordCount c1 = m1) (h2 : pyWordCount c2 = m2) :
    (monica_continuation c1 m1 cp round).2 = 0 ∧
    poe_supplement_loop m2 rounds c2 = some (c2, 0) := by
  constructor
  · unfold monica_continuation
    have hlt : ¬ (monicaWordCount c1 < m1) := by omega
    simp [hlt]
  · have hc : check_content_length c2 m2 = true := by
      simp only [check_content_length, ge_iff_le, decide_eq_true_eq]
      omega
    rw [poe_supplement_loop.eq_def]
    simp [hc]

/-- Witness for C5 at word counts exactly at the minimum on both platforms. -/
theorem C5_boundary_witness :
    (monica_continuation "abc" 3 "x" ⟨true, true, none⟩).2 = 0 ∧
    poe_supplement_loop 2 [] "a b" = some ("a b", 0) :=
  C5_boundary "abc" "a b" 3 2 "x" ⟨true, true, none⟩ [] (by decide) (by decide)

/-- Claim C6, counterexample: the sanitisation of `_save_article` drops the
dash, so a title containing a dash is not saved under the name the claim
requires (the claim keeps alphanumeric, space, dash and underscore). -/
theorem C6_counterexample :
    safe_title Char.isAlphanum "a-b" = "ab" ∧
    claimSanitize Char.isAlphanum "a-b" = "a-b" ∧
    safe_title Char.isAlphanum "a-b" ≠ claimSanitize Char.isAlphanum "a-b" := by
  decide

/-- Claim C6, amended: the final Markdown file is written to
`<save_path>/<sanitized_title>.md` where the sanitised title keeps exactly the
alphanumeric characters, spaces and underscores of the title (dash is not
kept), in order and unmodified, with trailing whitespace then stripped. -/
theorem C6_amended (alnum : Char → Bool) (savePath title : String) :
    save_filename alnum savePath title =
      savePath ++ "/" ++ safe_title alnum title ++ ".md" ∧
    (safe_title alnum title).data.Sublist title.data ∧
    (∀ c ∈ (safe_title alnum title).data,
      alnum c = true ∨ c = ' ' ∨ c = '_') ∧
    (∀ c, (safe_title alnum title).data.getLast? = some c →
      c.isWhitespace = false) := by
  refine ⟨rfl, ?_, ?_, ?_⟩
  · exact (rstripChars_sublist _).trans (List.filter_sublist _)
  · intro c hc
    have hmem := (rstripChars_sublist _).subset hc
    have hkeep := List.of_mem_filter hmem
    simp only [keepChar, Bool.or_eq_true, beq_iff_eq] at hkeep
    tauto
  · intro c hc
    have : ((title.data.filter (keepChar alnum)).reverse.dropWhile
        Char.isWhitespace).head? = some c := by
      have := hc
      rwa [show (safe_title alnum title).data = rstripChars
            (title.data.filter (keepChar alnum)) from rfl,
        rstripChars, List.getLast?_reverse] at this
    exact head?_dropWhile _ _ _ this

/-- Witness for C6's amended theorem at a dashed title. -/
theorem C6_amended_witness :
    save_filename Char.isAlphanum "out" "a-b " =
      "out" ++ "/" ++ safe_title Char.isAlphanum "a-b " ++ ".md" ∧
    (safe_title Char.isAlphanum "a-b ").data.Sublist "a-b ".data ∧
    (∀ c ∈ (safe_title Char.isAlphanum "a-b ").data,
      Char.isAlphanum c = true ∨ c = ' ' ∨ c = '_') ∧
    (∀ c, (safe_title Char.isAlphanum "a-b ").data.getLast? = some c →
      c.isWhitespace = false) :=
  C6_amended Char.isAlphanum "out" "a-b "

/-- Claim C8: when the navigation command is accepted but the ready-state
polling never observes the interactive or complete state, `navigate` still
returns true; it returns false exactly when the navigation command itself
fails. -/
theorem C8_navigate (polls : List (Option String))
    (h : ∀ rs : String, some rs ∈ polls →
      rs ≠ "interactive" ∧ rs ≠ "complete") :
    navigate true polls = true ∧ ∀ ps, navigate false ps = false := by
  constructor
  · show (if true = true then navigateWait polls else false) = true
    rw [if_pos rfl]
    exact navigateWait_true polls
  · intro ps
    rfl

/-- Witness for C8 on a poll trace that never reaches a ready state. -/
theorem C8_navigate_witness :
    navigate true [some "loading", none] = true ∧
    ∀ ps, navigate false ps = false :=
  C8_navigate [some "loading", none] (fun rs hm => by
    simp only [List.mem_cons, Option.some.injEq, reduceCtorEq,
      List.not_mem_nil, or_false, false_or] at hm
    subst hm
    decide)

/-- Claim C9, counterexample: against a page whose element appears only from
poll step 1 on, the single-element CSS lookup (which polls) finds it within
the timeout, while the multi-element CSS lookup returns the empty list — the
multi-element lookup issues a single immediate query and does not share the
polling contract. -/
theorem C9_counterexample :
    find_element_by_css lateElementPage 5 0 = some 7 ∧
    find_elements_by_css lateElementPage = [] := by decide

/-- Claim C9, amended: the single-element lookup polls step by step and
returns `none` (never raising) when no element is present within the timeout;
the multi-element lookup performs one immediate query, ignoring the timeout,
and returns the empty list (never raising) when that single query yields no
elements — its result depends only on the page state at the first poll. -/
theorem C9_amended {α : Type} (page : Nat → Option (List α)) (fuel step : Nat)
    (habsent : ∀ k es, page k = some es → es = []) :
    find_element_by_css page fuel step = none ∧
    find_elements_by_css page = [] ∧
    (∀ page2 : Nat → Option (List α), page2 0 = page 0 →
      find_elements_by_css page2 = find_elements_by_css page) := by
  refine ⟨?_, ?_, ?_⟩
  · induction fuel generalizing step with
    | zero => rfl
    | succ n ih =>
      show (match page step with
        | some (e :: _) => some e
        | _ => find_element_by_css page n (step + 1)) = none
      cases hp : page step with
      | none => exact ih (step + 1)
      | some es =>
        have := habsent _ _ hp
        subst this
        exact ih (step + 1)
  · show (match page 0 with | some es => es | none => []) = []
    cases hp : page 0 with
    | none => rfl
    | some es => exact habsent _ _ hp
  · intro page2 h0
    show (match page2 0 with | some es => es | none => []) =
      (match page 0 with | some es => es | none => [])
    rw [h0]

/-- Claim C7: body extraction tries the ordered container selectors in
sequence and returns the stripped content of the first selector whose text is
above the minimum length threshold: with selectors `[A, B, C]` where `A`
yields nothing or only short text and `B` yields sufficiently long text,
extraction returns `B`'s content. -/
theorem C7_selector_fallback (query : String → Option String) (A B C sB : String)
    (hA : ∀ s, query A = some s → (pyStrip s).length ≤ 100)
    (hB : query B = some sB) (hlen : (pyStrip sB).length > 100) :
    extract_article_content query [A, B, C] = some (pyStrip sB) := by
  have hstep : extract_article_content query [A, B, C] =
      extract_article_content query [B, C] := by
    cases hqA : query A with
    | none => simp [extract_article_content, hqA]
    | some s =>
      have hle := hA s hqA
      have hng : ¬ ((pyStrip s).length > 100) := by omega
      simp [extract_article_content, hqA, hng]
  rw [hstep]
  simp [extract_article_content, hB, hlen]

/-- Witness for C7: the first selector yields whitespace, the second a
150-character text, the third short text; extraction returns the second. -/
theorem C7_selector_fallback_witness :
    extract_article_content fallbackQuery ["selA", "selB", "selC"] =
      some (pyStrip longText) :=
  C7_selector_fallback fallbackQuery "selA" "selB" "selC" longText
    (fun s hs => by
      rw [show fallbackQuery "selA" = some " " from rfl, Option.some_inj] at hs
      subst hs
      decide)
    (by rfl)
    (by decide)

/-- Claim C4: for a document with N level-2 headings and M > N image lines,
image insertion places the first N images one per heading in document order —
up to the blank separator lines the code adds, each heading is immediately
followed by its image — and appends the remaining M − N images, in their
original order, after a trailing related-images level-2 heading at the end of
the document.  Stated as: dropping the inserted blank lines, the output is
exactly the claim-side placement of the first N images followed by the
trailing heading and the leftover images. -/
theorem C4_image_distribution (lines pics : List String)
    (hM : countLevel2 lines < pics.length)
    (hpics : ∀ p ∈ pics, p ≠ "") :
    (insert_images_lines lines pics).filter (fun s => s != "") =
      claimPlaceImages (lines.filter (fun s => s != ""))
        (pics.take (countLevel2 lines)) ++
      relatedImagesHeading :: pics.drop (countLevel2 lines) := by
  unfold insert_images_lines
  rw [List.filter_append, insertLoop_fst_filter lines pics hpics,
    insertLoop_snd lines pics]
  rw [trailingImagesBlock_filter _
    (fun p hp => hpics p ((List.drop_sublist _ _).subset hp))
    (by
      intro hnil
      have hlen := congrArg List.length hnil
      rw [List.length_drop] at hlen
      simp only [List.length_nil] at hlen
      omega)]

/-- Witness for C4 on a document with two headings and three images. -/
theorem C4_image_distribution_witness :
    (insert_images_lines ["## A", "x", "## B"] ["p1", "p2", "p3"]).filter
        (fun s => s != "") =
      claimPlaceImages ((["## A", "x", "## B"] : List String).filter
          (fun s => s != ""))
        ((["p1", "p2", "p3"] : List String).take
          (countLevel2 ["## A", "x", "## B"])) ++
      relatedImagesHeading ::
        (["p1", "p2", "p3"] : List String).drop
          (countLevel2 ["## A", "x", "## B"]) :=
  C4_image_distribution ["## A", "x", "## B"] ["p1", "p2", "p3"]
    (by decide) (by decide)

/-- Claim C10 (frame property of image insertion): the output contains every
line of the original content unchanged and in the original relative order
(the content lines form a sublist of the output), and, up to inserted blank
lines and the possible trailing related-images heading, the output is a
permutation of the content lines plus each provided image line exactly once —
no image line is dropped or duplicated and no content line is modified. -/
theorem C10_frame (lines pics : List String) :
    lines.Sublist (insert_images_lines lines pics) ∧
    ∃ k, List.Perm (insert_images_lines lines pics)
      (lines ++ pics ++ List.replicate k "" ++
        (if countLevel2 lines < pics.length then [relatedImagesHeading]
         else [])) := by
  constructor
  · exact (insertLoop_fst_sublist lines pics).trans
      (List.sublist_append_left _ _)
  · by_cases hcase : countLevel2 lines < pics.length
    · refine ⟨2 * min (countLevel2 lines) pics.length +
        (pics.length - countLevel2 lines) + 2, ?_⟩
      have hdropne : pics.drop (countLevel2 lines) ≠ [] := by
        intro hnil
        have hlen := congrArg List.length hnil
        rw [List.length_drop] at hlen
        simp only [List.length_nil] at hlen
        omega
      rw [List.perm_iff_count]
      intro x
      unfold insert_images_lines
      rw [List.count_append, insertLoop_count, insertLoop_snd,
        trailingImagesBlock_count x _ hdropne]
      rw [List.count_append, List.count_append, List.count_append,
        List.count_replicate, if_pos hcase]
      have hsplit : pics.count x =
          (pics.take (countLevel2 lines)).count x +
          (pics.drop (countLevel2 lines)).count x := by
        rw [← List.count_append, List.take_append_drop]
      have hdlen : (pics.drop (countLevel2 lines)).length =
          pics.length - countLevel2 lines := List.length_drop _ _
      rw [hsplit, hdlen, count_if_eq]
      simp only [List.count_nil, beq_iff_eq]
      split_ifs <;> first | omega | (exfalso; subst_vars; simp_all)
    · refine ⟨2 * min (countLevel2 lines) pics.length, ?_⟩
      have hge : pics.length ≤ countLevel2 lines := by omega
      have hdrop : pics.drop (countLevel2 lines) = [] :=
        List.drop_eq_nil_of_le hge
      rw [List.perm_iff_count]
      intro x
      unfold insert_images_lines
      rw [List.count_append, insertLoop_count, insertLoop_snd, hdrop]
      rw [show trailingImagesBlock [] = [] from rfl]
      rw [if_neg hcase]
      rw [List.count_append, List.count_append, List.count_append,
        List.count_replicate, List.count_nil]
      rw [List.take_of_length_le hge]
      simp only [List.count_nil, beq_iff_eq]
      split_ifs <;> first | omega | (exfalso; subst_vars; simp_all)

/-- Witness for C9's amended theorem on an element-free page. -/
theorem C9_amended_witness :
    find_element_by_css (fun _ => some ([] : List Nat)) 3 0 = none ∧
    find_elements_by_css (fun _ => some ([] : List Nat)) = [] ∧
    (∀ page2 : Nat → Option (List Nat),
      page2 0 = (fun _ => some ([] : List Nat)) 0 →
      find_elements_by_css page2 =
        find_elements_by_css (fun _ => some ([] : List Nat))) :=
  C9_amended (fun _ => some []) 3 0 (fun _ es h => (Option.some.inj h).symm)

end WriteTool
